import Mathlib

/-!
Verification of the inotify-watch core of libinotify-kqueue
(`src/inotify-watch.c`), a library that emulates the Linux inotify API on
top of BSD kqueue.  The `i_watch` subsystem translates one user-visible
watch into a parent vnode watch plus a set of per-inode dependency
watches.  We give a shallow embedding of the data model and of the
operations `iwatch_init`, `iwatch_free`, `iwatch_add_subwatch`,
`iwatch_del_subwatch`, `iwatch_move_subwatch` and `iwatch_update_flags`,
with syscall outcomes (open/fstat/fstatat results, allocation and kevent
registration successes) supplied by explicit environment records, and an
event trace recording which file descriptors each operation opens,
closes, and registers with the kqueue.
-/

namespace Inotify

/-- File types as distinguished by the `S_IF*` bits of `st_mode`.
`unknown` corresponds to `DT_UNKNOWN` entries (the `S_ISUNK` macro). -/
inductive FileType where
  | regular
  | directory
  | symlink
  | fifo
  | socket
  | blockdev
  | chardev
  | unknown
deriving DecidableEq, Repr

/-- The part of `struct stat` the inotify-watch code reads: inode number,
device number, and the file-type bits of the mode. -/
structure Stat where
  st_ino : Nat
  st_dev : Nat
  st_mode : FileType
deriving DecidableEq, Repr

/-- `dep_item`: one directory entry of the snapshot — name (the code calls
it `path`, relative to the parent directory), inode as reported by the
most recent scan, and a file-type hint. -/
structure DepItem where
  path : String
  inode : Nat
  type : FileType
deriving DecidableEq, Repr

/-- `di_settype (di, mode)`: record the file-type bits of `mode` in the
dep item (macro from utils.h; only the `S_IFMT` bits are kept, which our
`FileType` already is). -/
def di_settype (di : DepItem) (mode : FileType) : DepItem :=
  { di with type := mode }

/-- A back-reference from a watch to the dependency that justifies it.
`parent` is the `DI_PARENT` sentinel marking a user-requested watch. -/
inductive DepRef where
  | parent
  | item (di : DepItem)
deriving DecidableEq, Repr

/-- `WATCH_USER` marks the explicitly requested parent watch;
`WATCH_DEPENDENCY` marks an auto-opened child watch. -/
inductive WatchKind where
  | user
  | dependency
deriving DecidableEq, Repr

/-- `watch`: one kqueue vnode registration.  `flags` keeps the source
field name: the code stores the stat file-type bits there (it is passed
as the `file_type` argument of `inotify_to_kqueue` and to `di_settype`).
`deps` is the list of back-references justifying the watch. -/
structure Watch where
  kind : WatchKind
  fd : Nat
  flags : FileType
  inode : Nat
  deps : List DepRef
deriving DecidableEq, Repr

/-- `i_watch`: one logical user-visible watch.  The worker back-reference
`wrk` is navigation-only and is omitted.  `watches` is the watch-set
(keyed by inode), `deps` the current directory snapshot. -/
structure IWatch where
  fd : Nat
  flags : Nat
  inode : Nat
  dev : Nat
  is_closed : Bool
  skip_subfiles : Bool
  watches : List Watch
  deps : List DepItem
deriving DecidableEq, Repr

/-- Trace of externally visible fd/kqueue effects of one operation:
file descriptors opened, file descriptors closed, and kqueue
registrations `(fd, fflags)` issued via `watch_register_event` or
`watch_init`. -/
structure Trace where
  opened : List Nat
  closed : List Nat
  registered : List (Nat × Nat)
deriving DecidableEq, Repr

def Trace.empty : Trace := ⟨[], [], []⟩

instance : Append Trace :=
  ⟨fun a b => ⟨a.opened ++ b.opened, a.closed ++ b.closed, a.registered ++ b.registered⟩⟩

/-- Append a closed fd to a trace (a `close (fd)` call in the source). -/
def Trace.close (tr : Trace) (fd : Nat) : Trace :=
  { tr with closed := tr.closed ++ [fd] }

/- Inotify mask bits (sys/inotify.h, Linux bit values). -/

def IN_ACCESS : Nat := 0x1
def IN_MODIFY : Nat := 0x2
def IN_ATTRIB : Nat := 0x4
def IN_CLOSE_WRITE : Nat := 0x8
def IN_CLOSE_NOWRITE : Nat := 0x10
def IN_OPEN : Nat := 0x20
def IN_MOVED_FROM : Nat := 0x40
def IN_MOVED_TO : Nat := 0x80
def IN_CREATE : Nat := 0x100
def IN_DELETE : Nat := 0x200
def IN_DELETE_SELF : Nat := 0x400
def IN_MOVE_SELF : Nat := 0x800
def IN_MASK_ADD : Nat := 0x20000000

/- kqueue EVFILT_VNODE filter flags. -/

def NOTE_DELETE : Nat := 0x1
def NOTE_WRITE : Nat := 0x2
def NOTE_EXTEND : Nat := 0x4
def NOTE_ATTRIB : Nat := 0x8
def NOTE_LINK : Nat := 0x10
def NOTE_RENAME : Nat := 0x20
def NOTE_OPEN : Nat := 0x80
def NOTE_CLOSE : Nat := 0x100
def NOTE_READ : Nat := 0x400

/-- Modelled from the spec: the flag translator `inotify_to_kqueue`
(spec §4.1) lives in the event-translation code, which is not among the
provided sources.  It maps the user's inotify mask and the target's file
type to the minimal set of `EVFILT_VNODE` fflags observing the requested
events: attribute/metadata events need `NOTE_ATTRIB`; modify/access on
regular files need `NOTE_WRITE`/`NOTE_EXTEND`/`NOTE_READ`; open/close
events need `NOTE_OPEN`/`NOTE_CLOSE`; a directory parent requesting
`CREATE`/`DELETE`/`MOVED_*` (or `MODIFY`) needs `NOTE_WRITE` on the
parent; self-delete/self-move on the parent need
`NOTE_DELETE`/`NOTE_RENAME`.  A result of 0 means no kernel watch is
needed — per spec §4.1 this is how non-directory subwatches are elided
when the mask observes only directory-level events. -/
def inotify_to_kqueue (mask : Nat) (type : FileType) (is_parent : Bool) : Nat :=
  (if mask &&& IN_ATTRIB ≠ 0 then NOTE_ATTRIB else 0) |||
  (if mask &&& IN_MODIFY ≠ 0 ∧ type = FileType.regular then NOTE_WRITE ||| NOTE_EXTEND else 0) |||
  (if mask &&& IN_ACCESS ≠ 0 ∧ type = FileType.regular then NOTE_READ else 0) |||
  (if mask &&& IN_OPEN ≠ 0 then NOTE_OPEN else 0) |||
  (if mask &&& (IN_CLOSE_WRITE ||| IN_CLOSE_NOWRITE) ≠ 0 then NOTE_CLOSE else 0) |||
  (if is_parent = true ∧ type = FileType.directory ∧
      mask &&& (IN_CREATE ||| IN_DELETE ||| IN_MOVED_FROM ||| IN_MOVED_TO ||| IN_MODIFY) ≠ 0
   then NOTE_WRITE else 0) |||
  (if is_parent = true ∧ mask &&& IN_DELETE_SELF ≠ 0 then NOTE_DELETE else 0) |||
  (if is_parent = true ∧ mask &&& IN_MOVE_SELF ≠ 0 then NOTE_RENAME else 0)

/- ### Watch-set operations (watch-set.c; spec §4.4: a mapping from inode
number to watch, scoped to one `i_watch`, with find, insert, delete). -/

/-- `watch_set_find`: look up a watch by inode number. -/
def watch_set_find : List Watch → Nat → Option Watch
  | [], _ => none
  | w :: ws, ino => if w.inode = ino then some w else watch_set_find ws ino

/-- Replace the (first) watch keyed by `ino` with `w'` — in the source the
watch is mutated in place through its pointer, keeping its tree position. -/
def watch_set_replace : List Watch → Nat → Watch → List Watch
  | [], _, _ => []
  | w :: ws, ino, w' =>
    if w.inode = ino then w' :: ws else w :: watch_set_replace ws ino w'

/-- Remove the (first) watch keyed by `ino` from the set. -/
def watch_set_erase : List Watch → Nat → List Watch
  | [], _ => []
  | w :: ws, ino => if w.inode = ino then ws else w :: watch_set_erase ws ino

/-- Remove the first occurrence of a dep reference from a watch's dep
list (`watch_del_dep`'s list manipulation; a no-op when absent). -/
def removeFirst (r : DepRef) : List DepRef → List DepRef
  | [] => []
  | x :: xs => if x = r then xs else x :: removeFirst r xs

/-- Substitute dep reference `a` by `b` (`watch_chg_dep`'s list
manipulation; a no-op when `a` is absent). -/
def replaceFirst (a b : DepRef) : List DepRef → List DepRef
  | [] => []
  | x :: xs => if x = a then b :: xs else x :: replaceFirst a b xs

/-- Modelled from the spec: `watch_del_dep` (spec §4.2; watch.c is not
among the provided sources).  Removes the dep from the watch's dep list;
if the list becomes empty the watch removes itself from its `i_watch`'s
watch-set, deregisters and closes its fd.  Returns the updated watch-set
and the list of fds closed. -/
def watch_del_dep (ws : List Watch) (w : Watch) (r : DepRef) : List Watch × List Nat :=
  let deps' := removeFirst r w.deps
  if deps'.isEmpty then (watch_set_erase ws w.inode, [w.fd])
  else (watch_set_replace ws w.inode { w with deps := deps' }, [])

/-- Modelled from the spec: `watch_init` (spec §4.2; watch.c is not among
the provided sources).  Registers the fd with the owning kqueue and
builds the watch record — kind, fd, file-type bits from the stat, inode
from the stat, empty dep list.  Fails (returns none) when the kevent
registration or allocation fails, in which case the fd is closed by the
caller.  The success of the registration is supplied by the `ok`
environment bit. -/
def watch_init (ok : Bool) (kind : WatchKind) (fd : Nat) (st : Stat) : Option Watch :=
  if ok then some { kind := kind, fd := fd, flags := st.st_mode, inode := st.st_ino, deps := [] }
  else none

/- ### Syscall/allocation environment for one `iwatch_add_subwatch` call. -/

/-- Outcomes of the fallible steps inside one `iwatch_add_subwatch` call:
`openRes` the fd returned by `watch_open` (none = failure), `fstatRes`
the `fstat` result on that fd, `lstatRes` the `fstatat`
(`AT_SYMLINK_NOFOLLOW`) result on the entry's path, `watchInitOk`
whether `watch_init`'s registration/allocation succeeds, `addDepOk`
whether `watch_add_dep`'s allocation succeeds. -/
structure SubEnv where
  openRes : Option Nat
  fstatRes : Option Stat
  lstatRes : Option Stat
  watchInitOk : Bool
  addDepOk : Bool
deriving DecidableEq, Repr

/-- The environment in which every fallible step fails (used when an
environment list runs dry). -/
def SubEnv.allFail : SubEnv :=
  { openRes := none, fstatRes := none, lstatRes := none, watchInitOk := false, addDepOk := false }

/-- Result of `iwatch_add_subwatch`: updated `i_watch`, the (possibly
mutated) dep item, the returned watch pointer, and the fd/registration
trace. -/
abbrev AddResult := IWatch × DepItem × Option Watch × Trace

/-- The `lstat:` label of `iwatch_add_subwatch` (lines 276–284): if the
dep's type is still unknown, fill it in by `fstatat` without following
symlinks; return NULL. -/
def lstatFallback (env : SubEnv) (iw : IWatch) (di : DepItem) (tr : Trace) : AddResult :=
  if di.type = FileType.unknown then
    match env.lstatRes with
    | some st => (iw, di_settype di st.st_mode, none, tr)
    | none => (iw, di, none, tr)
  else (iw, di, none, tr)

/-- The `hold:` label of `iwatch_add_subwatch` (lines 270–274): append
the dep to the selected watch (`watch_add_dep`, which conses onto the
watch's dep list); if that allocation fails and the watch has no other
deps, delete the watch from the watch-set (which closes its fd).  The
watch pointer is returned in every case. -/
def holdStep (addDepOk : Bool) (iw : IWatch) (di : DepItem) (w : Watch) (tr : Trace) :
    AddResult :=
  if addDepOk then
    let w' := { w with deps := DepRef.item di :: w.deps }
    ({ iw with watches := watch_set_replace iw.watches w.inode w' }, di, some w', tr)
  else if w.deps.isEmpty then
    ({ iw with watches := watch_set_erase iw.watches w.inode }, di, some w, tr.close w.fd)
  else (iw, di, some w, tr)

/-- Lines 262–268 of `iwatch_add_subwatch`: create a new DEPENDENCY watch
on the opened fd via `watch_init` (closing the fd and returning NULL on
failure), insert it into the watch-set, and fall through to the hold
step. -/
def createAndHold (env : SubEnv) (iw : IWatch) (di : DepItem) (fd : Nat) (st : Stat)
    (tr : Trace) : AddResult :=
  match watch_init env.watchInitOk WatchKind.dependency fd st with
  | none => (iw, di, none, tr.close fd)
  | some w =>
    holdStep env.addDepOk { iw with watches := w :: iw.watches } di w
      { tr with registered := tr.registered ++ [(fd, inotify_to_kqueue iw.flags st.st_mode false)] }

/-- Lines 236–268 of `iwatch_add_subwatch`, after `watch_open`
succeeded: `fstat` the fd (on failure close it and take the lstat
fallback); set the dep's type; reconcile the snapshot inode with the
observed one — equal: accept; observed dev differs from the `i_watch`'s:
mountpoint, keep the original inode in the stat used for the new watch;
same dev: replacement race, overwrite the dep's inode with the observed
one and retry the watch-set lookup, adopting on a hit (closing the fresh
fd first). -/
def afterOpen (env : SubEnv) (iw : IWatch) (di : DepItem) (fd : Nat) : AddResult :=
  match env.fstatRes with
  | none => lstatFallback env iw di { Trace.empty with opened := [fd], closed := [fd] }
  | some st =>
    if di.inode = st.st_ino then
      createAndHold env iw (di_settype di st.st_mode) fd st { Trace.empty with opened := [fd] }
    else if iw.dev ≠ st.st_dev then
      createAndHold env iw (di_settype di st.st_mode) fd { st with st_ino := di.inode }
        { Trace.empty with opened := [fd] }
    else
      match watch_set_find iw.watches st.st_ino with
      | some w =>
        holdStep env.addDepOk iw { di with type := st.st_mode, inode := st.st_ino } w
          { Trace.empty with opened := [fd], closed := [fd] }
      | none =>
        createAndHold env iw { di with type := st.st_mode, inode := st.st_ino } fd st
          { Trace.empty with opened := [fd] }

/-- Lines 224–234 of `iwatch_add_subwatch`: refuse to open a watch whose
kqueue filter flags would be empty (known type and translator result 0 —
a signal, not an error); otherwise `watch_open` the entry relative to
the parent fd without following symlinks, taking the lstat fallback on
failure. -/
def tryOpen (env : SubEnv) (iw : IWatch) (di : DepItem) : AddResult :=
  if di.type ≠ FileType.unknown ∧ inotify_to_kqueue iw.flags di.type false = 0 then
    (iw, di, none, Trace.empty)
  else
    match env.openRes with
    | none => lstatFallback env iw di Trace.empty
    | some fd => afterOpen env iw di fd

/-- `iwatch_add_subwatch` (inotify-watch.c lines 202–285).  Returns NULL
immediately when the `i_watch` is closed; on a skip-subfiles filesystem
only the lstat fallback runs; otherwise the dep's inode is looked up in
the watch-set and an existing watch is adopted (its file-type bits
recorded in the dep), or a new watch is opened, stat'ed, reconciled and
created as above. -/
def iwatch_add_subwatch (env : SubEnv) (iw : IWatch) (di : DepItem) : AddResult :=
  if iw.is_closed then (iw, di, none, Trace.empty)
  else if iw.skip_subfiles then lstatFallback env iw di Trace.empty
  else
    match watch_set_find iw.watches di.inode with
    | some w => holdStep env.addDepOk iw (di_settype di w.flags) w Trace.empty
    | none => tryOpen env iw di

/-- `iwatch_del_subwatch` (lines 293–304): look up the dep's inode in the
watch-set; if a watch is present, remove the dep from it via
`watch_del_dep` (which deletes the watch and closes its fd when the last
dep departs). -/
def iwatch_del_subwatch (iw : IWatch) (di : DepItem) : IWatch × Trace :=
  match watch_set_find iw.watches di.inode with
  | none => (iw, Trace.empty)
  | some w =>
    let r := watch_del_dep iw.watches w (DepRef.item di)
    ({ iw with watches := r.1 }, { Trace.empty with closed := r.2 })

/-- `iwatch_move_subwatch` (lines 313–327): under the precondition
`di_from.inode == di_to.inode` (asserted in the source), look up the
inode; if a watch is found and its dep list is non-empty, substitute the
stored dep reference via `watch_chg_dep`; otherwise do nothing. -/
def iwatch_move_subwatch (iw : IWatch) (di_from di_to : DepItem) : IWatch × Trace :=
  match watch_set_find iw.watches di_to.inode with
  | some w =>
    if w.deps.isEmpty then (iw, Trace.empty)
    else
      let w' := { w with deps := replaceFirst (DepRef.item di_from) (DepRef.item di_to) w.deps }
      ({ iw with watches := watch_set_replace iw.watches di_to.inode w' }, Trace.empty)
  | none => (iw, Trace.empty)

/-- Iterate a step function over the dependency snapshot in order
(`DL_FOREACH`), threading the `i_watch`, collecting the in-place
mutations of the dep items, and accumulating the trace.  Each iteration
consumes the head of the environment list (all-fail when exhausted). -/
def depsLoop (step : SubEnv → IWatch → DepItem → IWatch × DepItem × Trace) :
    List SubEnv → IWatch → List DepItem → IWatch × List DepItem × Trace
  | _, iw, [] => (iw, [], Trace.empty)
  | envs, iw, di :: rest =>
    let r1 := step (envs.headD SubEnv.allFail) iw di
    let r2 := depsLoop step envs.tail r1.1 rest
    (r2.1, r1.2.1 :: r2.2.1, r1.2.2 ++ r2.2.2)

/-- One iteration of `iwatch_init`'s subwatch loop (lines 160–163):
`iwatch_add_subwatch`, the returned watch pointer discarded. -/
def addStep (env : SubEnv) (iw : IWatch) (di : DepItem) : IWatch × DepItem × Trace :=
  let r := iwatch_add_subwatch env iw di
  (r.1, r.2.1, r.2.2.2)

/-- One iteration of `iwatch_update_flags`'s loop (lines 358–372): if no
watch holds the entry (no watch at its inode, or the entry is not among
that watch's deps), try `iwatch_add_subwatch`; else translate the flags
for the entry's type — result 0 drops the entry's dep (possibly closing
the watch), otherwise the watch is re-registered with the new fflags. -/
def updateOne (env : SubEnv) (iw : IWatch) (di : DepItem) : IWatch × DepItem × Trace :=
  match watch_set_find iw.watches di.inode with
  | some w =>
    if DepRef.item di ∈ w.deps then
      if inotify_to_kqueue iw.flags w.flags false = 0 then
        ({ iw with watches := (watch_del_dep iw.watches w (DepRef.item di)).1 }, di,
         { Trace.empty with closed := (watch_del_dep iw.watches w (DepRef.item di)).2 })
      else
        (iw, di,
         { Trace.empty with registered := [(w.fd, inotify_to_kqueue iw.flags w.flags false)] })
    else addStep env iw di
  | none => addStep env iw di

/-- `iwatch_update_flags` (lines 338–373): merge the mask (OR with the
previous when `IN_MASK_ADD` is set, replace otherwise), store it,
re-register the parent watch with directory-parent fflags (the source
asserts the parent is present in the watch-set; when it is not, the
registration is skipped here), then walk the dependency snapshot with
`updateOne`. -/
def iwatch_update_flags (envs : List SubEnv) (iw : IWatch) (flags0 : Nat) : IWatch × Trace :=
  let flags := if flags0 &&& IN_MASK_ADD ≠ 0 then flags0 ||| iw.flags else flags0
  let iw1 := { iw with flags := flags }
  let tr0 : Trace :=
    match watch_set_find iw1.watches iw1.inode with
    | some w => { Trace.empty with registered := [(w.fd, inotify_to_kqueue flags w.flags true)] }
    | none => Trace.empty
  let r := depsLoop updateOne envs iw1 iw1.deps
  ({ r.1 with deps := r.2.1 }, tr0 ++ r.2.2)

/-- Fold `iwatch_del_subwatch` over the snapshot (the unwatch-subfiles
loop of `iwatch_free`, lines 179–182). -/
def delLoop : IWatch → List DepItem → IWatch × Trace
  | iw, [] => (iw, Trace.empty)
  | iw, di :: rest =>
    let r1 := iwatch_del_subwatch iw di
    let r2 := delLoop r1.1 rest
    (r2.1, r1.2 ++ r2.2)

/-- `iwatch_free` (lines 173–193): unwatch every subfile, then look up
the parent's inode in the watch-set and remove its `DI_PARENT` sentinel
(closing the parent watch when that was its last dep); release the
snapshot and the `i_watch`.  Returns the trace of fds closed. -/
def iwatch_free (iw : IWatch) : Trace :=
  let r1 := delLoop iw iw.deps
  match watch_set_find r1.1.watches r1.1.inode with
  | some w =>
    let r2 := watch_del_dep r1.1.watches w DepRef.parent
    r1.2 ++ { Trace.empty with closed := r2.2 }
  | none => r1.2

/-- Outcomes of the fallible steps inside one `iwatch_init` call:
`fstatRes` the `fstat` result on the target fd, `callocOk` whether the
`i_watch` allocation succeeds, `listing` the directory snapshot returned
by `dl_listing` (none = scan failure), `wantSkip` whether the
skip-subfiles filesystem check matches, `watchInitOk`/`addDepOk` the
parent `watch_init` and `watch_add_dep (parent, DI_PARENT)` successes,
`subEnvs` the per-entry environments of the subwatch loop. -/
structure InitEnv where
  fstatRes : Option Stat
  callocOk : Bool
  listing : Option (List DepItem)
  wantSkip : Bool
  watchInitOk : Bool
  addDepOk : Bool
  subEnvs : List SubEnv
deriving Repr

/-- `iwatch_init` (lines 104–166): `fstat` the target fd and allocate the
`i_watch` (failure of either is init-fatal); for a directory, take the
snapshot (scan failure is init-fatal, via `iwatch_free`) and evaluate the
skip-subfiles policy; create the parent USER watch and its `DI_PARENT`
dep (failure of either calls `iwatch_free` and fails) and insert the
parent into the watch-set; finally, for a directory, walk the snapshot
adding subwatches — individual subwatch failures do not fail
initialization. -/
def iwatch_init (env : InitEnv) (fd : Nat) (flags : Nat) : Option IWatch × Trace :=
  match env.fstatRes with
  | none => (none, Trace.empty)
  | some st =>
    if env.callocOk = false then (none, Trace.empty)
    else
      let iw0 : IWatch :=
        { fd := fd, flags := flags, inode := st.st_ino, dev := st.st_dev,
          is_closed := false, skip_subfiles := false, watches := [], deps := [] }
      let isdir := st.st_mode = FileType.directory
      let step1 : Option IWatch :=
        if isdir then
          match env.listing with
          | none => none
          | some ds => some { iw0 with deps := ds, skip_subfiles := env.wantSkip }
        else some iw0
      match step1 with
      | none => (none, iwatch_free iw0)
      | some iw1 =>
        match watch_init env.watchInitOk WatchKind.user fd st with
        | none => (none, iwatch_free iw1)
        | some parent =>
          if env.addDepOk = false then (none, iwatch_free iw1)
          else
            let parent1 := { parent with deps := [DepRef.parent] }
            let iw2 := { iw1 with watches := [parent1] }
            let trP : Trace :=
              { Trace.empty with registered := [(fd, inotify_to_kqueue flags st.st_mode true)] }
            if isdir then
              let r := depsLoop addStep env.subEnvs iw2 iw2.deps
              (some { r.1 with deps := r.2.1 }, trP ++ r.2.2)
            else (some iw2, trP)

/-! ### Basic lemmas about the watch-set operations -/

/-- The inode keys of a watch-set, in order. -/
def inos (ws : List Watch) : List Nat := ws.map (fun w => w.inode)

theorem watch_set_find_inode {ws : List Watch} {ino : Nat} {w : Watch}
    (h : watch_set_find ws ino = some w) : w.inode = ino := by
  induction ws with
  | nil => simp [watch_set_find] at h
  | cons x xs ih =>
    by_cases hx : x.inode = ino
    · simp [watch_set_find, hx] at h
      exact h ▸ hx
    · simp [watch_set_find, hx] at h
      exact ih h

theorem watch_set_find_mem {ws : List Watch} {ino : Nat} {w : Watch}
    (h : watch_set_find ws ino = some w) : w ∈ ws := by
  induction ws with
  | nil => simp [watch_set_find] at h
  | cons x xs ih =>
    by_cases hx : x.inode = ino
    · simp [watch_set_find, hx] at h
      simp [h]
    · simp [watch_set_find, hx] at h
      exact List.mem_cons_of_mem x (ih h)

theorem watch_set_find_eq_none {ws : List Watch} {ino : Nat} :
    watch_set_find ws ino = none ↔ ino ∉ inos ws := by
  induction ws with
  | nil => simp [watch_set_find, inos]
  | cons x xs ih =>
    by_cases hx : x.inode = ino
    · simp [watch_set_find, hx, inos]
    · simp [watch_set_find, hx, inos] at ih ⊢
      exact ⟨fun h => ⟨fun he => hx he.symm, ih.mp h⟩, fun h => ih.mpr h.2⟩

theorem inos_replace {ws : List Watch} {ino : Nat} {w' : Watch} (h : w'.inode = ino) :
    inos (watch_set_replace ws ino w') = inos ws := by
  induction ws with
  | nil => rfl
  | cons x xs ih =>
    by_cases hx : x.inode = ino
    · simp [watch_set_replace, hx, inos, h]
    · simp [watch_set_replace, hx, inos] at ih ⊢
      exact ih

theorem watch_set_erase_sublist (ws : List Watch) (ino : Nat) :
    List.Sublist (watch_set_erase ws ino) ws := by
  induction ws with
  | nil => simp [watch_set_erase]
  | cons x xs ih =>
    by_cases hx : x.inode = ino
    · simp [watch_set_erase, hx]
    · simp [watch_set_erase, hx]
      exact ih

theorem nodup_inos_erase {ws : List Watch} {ino : Nat} (h : (inos ws).Nodup) :
    (inos (watch_set_erase ws ino)).Nodup :=
  List.Nodup.sublist (List.Sublist.map _ (watch_set_erase_sublist ws ino)) h

theorem watch_set_replace_self {ws : List Watch} {ino : Nat} {w : Watch}
    (h : watch_set_find ws ino = some w) : watch_set_replace ws ino w = ws := by
  induction ws with
  | nil => simp [watch_set_find] at h
  | cons x xs ih =>
    by_cases hx : x.inode = ino
    · simp [watch_set_find, hx] at h
      subst h
      simp [watch_set_replace, hx]
    · simp [watch_set_find, hx] at h
      simp [watch_set_replace, hx, ih h]

theorem watch_set_replace_replace {ws : List Watch} {ino : Nat} {w1 w2 : Watch}
    (h : w1.inode = ino) :
    watch_set_replace (watch_set_replace ws ino w1) ino w2 = watch_set_replace ws ino w2 := by
  induction ws with
  | nil => rfl
  | cons x xs ih =>
    by_cases hx : x.inode = ino
    · simp [watch_set_replace, hx, h]
    · simp [watch_set_replace, hx, ih]

theorem watch_set_find_replace {ws : List Watch} {ino : Nat} {w w1 : Watch}
    (h1 : w1.inode = ino) (h : watch_set_find ws ino = some w) :
    watch_set_find (watch_set_replace ws ino w1) ino = some w1 := by
  induction ws with
  | nil => simp [watch_set_find] at h
  | cons x xs ih =>
    by_cases hx : x.inode = ino
    · simp [watch_set_replace, watch_set_find, hx, h1]
    · simp [watch_set_replace, watch_set_find, hx] at h ⊢
      exact ih h

theorem removeFirst_cons_self (r : DepRef) (l : List DepRef) :
    removeFirst r (r :: l) = l := by
  simp [removeFirst]

theorem removeFirst_of_not_mem {r : DepRef} {l : List DepRef} (h : r ∉ l) :
    removeFirst r l = l := by
  induction l with
  | nil => rfl
  | cons x xs ih =>
    simp only [List.mem_cons, not_or] at h
    simp only [removeFirst]
    rw [if_neg (fun he : x = r => h.1 he.symm), ih h.2]

theorem inos_erase_sublist (ws : List Watch) (ino : Nat) :
    List.Sublist (inos (watch_set_erase ws ino)) (inos ws) :=
  List.Sublist.map _ (watch_set_erase_sublist ws ino)

theorem mem_watch_set_replace_of_ne {ws : List Watch} {ino : Nat} {w w' : Watch}
    (hm : w ∈ ws) (hne : w.inode ≠ ino) : w ∈ watch_set_replace ws ino w' := by
  induction ws with
  | nil => simp at hm
  | cons x xs ih =>
    by_cases hx : x.inode = ino
    · simp only [watch_set_replace, if_pos hx]
      rcases List.mem_cons.mp hm with rfl | hm2
      · exact absurd hx hne
      · exact List.mem_cons_of_mem _ hm2
    · simp only [watch_set_replace, if_neg hx]
      rcases List.mem_cons.mp hm with rfl | hm2
      · exact List.mem_cons_self _ _
      · exact List.mem_cons_of_mem _ (ih hm2)

theorem watch_set_replace_mem {ws : List Watch} {ino : Nat} {w1 w' : Watch}
    (h : w' ∈ watch_set_replace ws ino w1) : w' = w1 ∨ w' ∈ ws := by
  induction ws with
  | nil => simp [watch_set_replace] at h
  | cons x xs ih =>
    by_cases hx : x.inode = ino
    · simp only [watch_set_replace, if_pos hx] at h
      rcases List.mem_cons.mp h with rfl | hm
      · exact Or.inl rfl
      · exact Or.inr (List.mem_cons_of_mem _ hm)
    · simp only [watch_set_replace, if_neg hx] at h
      rcases List.mem_cons.mp h with rfl | hm
      · exact Or.inr (List.mem_cons_self _ _)
      · rcases ih hm with h1 | h2
        · exact Or.inl h1
        · exact Or.inr (List.mem_cons_of_mem _ h2)

/-! ### Claim theorems -/

/-- **C5.** For every call to `iwatch_add_subwatch` with `is_closed`
false, `skip_subfiles` unset, a dep item whose type is known (not
UNKNOWN) and whose inode has no existing watch: if the flag translator
`inotify_to_kqueue (iw.flags, type, false)` returns 0, the call returns
null without opening any file descriptor and without modifying the
watch-set — the zero result is a signal that no kernel watch is needed,
not an error. -/
theorem iwatch_add_subwatch_empty_fflags (env : SubEnv) (iw : IWatch) (di : DepItem)
    (h1 : iw.is_closed = false) (h2 : iw.skip_subfiles = false)
    (h3 : watch_set_find iw.watches di.inode = none)
    (h4 : di.type ≠ FileType.unknown)
    (h5 : inotify_to_kqueue iw.flags di.type false = 0) :
    iwatch_add_subwatch env iw di = (iw, di, none, Trace.empty) := by
  simp [iwatch_add_subwatch, h1, h2, h3, tryOpen, h4, h5]

/-- Witness for C5: a concrete regular-file dep under an `IN_CREATE`-only
mask is elided without any fd being opened. -/
theorem iwatch_add_subwatch_empty_fflags_holds :
    iwatch_add_subwatch SubEnv.allFail
      { fd := 3, flags := IN_CREATE, inode := 1, dev := 1, is_closed := false,
        skip_subfiles := false, watches := [], deps := [] }
      ⟨"a", 5, FileType.regular⟩ =
    ({ fd := 3, flags := IN_CREATE, inode := 1, dev := 1, is_closed := false,
       skip_subfiles := false, watches := [], deps := [] },
     ⟨"a", 5, FileType.regular⟩, none, Trace.empty) :=
  iwatch_add_subwatch_empty_fflags _ _ _ rfl rfl rfl (by decide) (by decide)

/-- **C9.** For every call to `iwatch_move_subwatch (iw, di_from, di_to)`
under the precondition `di_from.inode = di_to.inode`: if a watch for that
inode exists and its dep list is non-empty, only the stored dep reference
is swapped from `di_from` to `di_to` — the watch's fd, kind, file-type
bits and inode, its kqueue registration (no register/close/open event is
traced), every other entry of the watch-set, and all scalar fields of the
`i_watch` are unchanged; if no such watch exists, or its dep list is
empty, the call changes nothing. -/
theorem iwatch_move_subwatch_frame (iw : IWatch) (di_from di_to : DepItem)
    (hpre : di_from.inode = di_to.inode) :
    ((iwatch_move_subwatch iw di_from di_to).2 = Trace.empty) ∧
    ((iwatch_move_subwatch iw di_from di_to).1.deps = iw.deps ∧
     (iwatch_move_subwatch iw di_from di_to).1.flags = iw.flags ∧
     (iwatch_move_subwatch iw di_from di_to).1.fd = iw.fd ∧
     (iwatch_move_subwatch iw di_from di_to).1.inode = iw.inode ∧
     (iwatch_move_subwatch iw di_from di_to).1.dev = iw.dev ∧
     (iwatch_move_subwatch iw di_from di_to).1.is_closed = iw.is_closed) ∧
    (watch_set_find iw.watches di_to.inode = none →
      (iwatch_move_subwatch iw di_from di_to).1 = iw) ∧
    (∀ w, watch_set_find iw.watches di_to.inode = some w → w.deps = [] →
      (iwatch_move_subwatch iw di_from di_to).1 = iw) ∧
    (∀ w, watch_set_find iw.watches di_to.inode = some w → w.deps ≠ [] →
      (iwatch_move_subwatch iw di_from di_to).1.watches =
        watch_set_replace iw.watches di_to.inode
          { w with deps := replaceFirst (DepRef.item di_from) (DepRef.item di_to) w.deps }) ∧
    (∀ w, w ∈ iw.watches → w.inode ≠ di_to.inode →
      w ∈ (iwatch_move_subwatch iw di_from di_to).1.watches) ∧
    (∀ w', w' ∈ (iwatch_move_subwatch iw di_from di_to).1.watches →
      ∃ w, w ∈ iw.watches ∧ w'.fd = w.fd ∧ w'.inode = w.inode ∧ w'.kind = w.kind ∧
        w'.flags = w.flags) := by
  cases hf : watch_set_find iw.watches di_to.inode with
  | none =>
    have hred : iwatch_move_subwatch iw di_from di_to = (iw, Trace.empty) := by
      simp only [iwatch_move_subwatch, hf]
    rw [hred]
    refine ⟨rfl, ⟨rfl, rfl, rfl, rfl, rfl, rfl⟩, fun _ => rfl, ?_, ?_, ?_, ?_⟩
    · intro w hw _
      exact Option.noConfusion hw
    · intro w hw
      exact Option.noConfusion hw
    · exact fun w hm _ => hm
    · exact fun w' hm => ⟨w', hm, rfl, rfl, rfl, rfl⟩
  | some w =>
    by_cases he : w.deps.isEmpty
    · have hred : iwatch_move_subwatch iw di_from di_to = (iw, Trace.empty) := by
        simp only [iwatch_move_subwatch, hf, if_pos he]
      rw [hred]
      refine ⟨rfl, ⟨rfl, rfl, rfl, rfl, rfl, rfl⟩, fun _ => rfl, fun _ _ _ => rfl, ?_, ?_, ?_⟩
      · intro w2 hw2 hne
        injection hw2 with hw2
        subst hw2
        exact absurd (List.isEmpty_iff.mp he) hne
      · exact fun w2 hm _ => hm
      · exact fun w' hm => ⟨w', hm, rfl, rfl, rfl, rfl⟩
    · have hred : iwatch_move_subwatch iw di_from di_to =
          ({ iw with watches := (watch_set_replace iw.watches di_to.inode { w with deps := replaceFirst (DepRef.item di_from) (DepRef.item di_to) w.deps }) }, Trace.empty) := by
        simp only [iwatch_move_subwatch, hf, if_neg he]
      rw [hred]
      refine ⟨rfl, ⟨rfl, rfl, rfl, rfl, rfl, rfl⟩, ?_, ?_, ?_, ?_, ?_⟩
      · intro hc
        exact Option.noConfusion hc
      · intro w2 hw2 hemp
        injection hw2 with hw2
        subst hw2
        exact absurd (List.isEmpty_iff.mpr hemp) he
      · intro w2 hw2 _
        injection hw2 with hw2
        subst hw2
        rfl
      · intro w2 hm hne
        exact mem_watch_set_replace_of_ne hm hne
      · intro w' hm
        rcases watch_set_replace_mem hm with rfl | hm2
        · exact ⟨w, watch_set_find_mem hf, rfl, rfl, rfl, rfl⟩
        · exact ⟨w', hm2, rfl, rfl, rfl, rfl⟩

/-- A minimal `i_watch` used for the concrete null-return mutation
scenarios: empty watch-set, `IN_MODIFY` mask. -/
def nullMutBase : IWatch :=
  { fd := 3, flags := IN_MODIFY, inode := 1, dev := 1, is_closed := false,
    skip_subfiles := false, watches := [], deps := [] }

/-- **C10.** For some inputs `iwatch_add_subwatch` returns null yet
mutates the dep item passed to it: (a) when open fails and the dep's type
is UNKNOWN, the type is filled in via `fstatat`; (b) in the
replacement-race branch the dep's inode is overwritten with the newly
observed inode even though the subsequent `watch_init` then fails; (c) in
the `skip_subfiles` path the dep's type is set; (d) in the adopt path the
dep's type is set from the existing watch.  A null return therefore does
not imply the dep item is unchanged. -/
theorem iwatch_add_subwatch_null_mutates_dep :
    (iwatch_add_subwatch
        { openRes := none, fstatRes := none, lstatRes := some ⟨5, 1, FileType.regular⟩,
          watchInitOk := false, addDepOk := false }
        nullMutBase ⟨"a", 5, FileType.unknown⟩ =
      (nullMutBase, ⟨"a", 5, FileType.regular⟩, none, Trace.empty)) ∧
    (iwatch_add_subwatch
        { openRes := some 9, fstatRes := some ⟨6, 1, FileType.regular⟩, lstatRes := none,
          watchInitOk := false, addDepOk := false }
        nullMutBase ⟨"b", 5, FileType.regular⟩ =
      (nullMutBase, ⟨"b", 6, FileType.regular⟩, none,
       { opened := [9], closed := [9], registered := [] })) ∧
    (iwatch_add_subwatch
        { openRes := some 9, fstatRes := some ⟨5, 1, FileType.directory⟩,
          lstatRes := some ⟨5, 1, FileType.directory⟩, watchInitOk := true, addDepOk := true }
        { nullMutBase with skip_subfiles := true } ⟨"c", 5, FileType.unknown⟩ =
      ({ nullMutBase with skip_subfiles := true }, ⟨"c", 5, FileType.directory⟩, none,
       Trace.empty)) ∧
    ((iwatch_add_subwatch
        { openRes := none, fstatRes := none, lstatRes := none,
          watchInitOk := false, addDepOk := true }
        { nullMutBase with
            watches := [{ kind := WatchKind.dependency, fd := 8, flags := FileType.directory,
                          inode := 5, deps := [DepRef.item ⟨"z", 5, FileType.directory⟩] }] }
        ⟨"d", 5, FileType.unknown⟩).2.1 =
      ⟨"d", 5, FileType.directory⟩) := by
  refine ⟨?_, ?_, ?_, ?_⟩ <;> decide

/-- The init environment exercising the partial-initialization path of
`iwatch_init` on a regular-file target: `fstat` reports inode 7 on device
3, the allocation succeeds, `watch_init` on the parent succeeds, but the
`watch_add_dep (parent, DI_PARENT)` allocation fails, so `iwatch_free` is
called before the parent watch was inserted into the watch-set. -/
def initEnvPartial : InitEnv :=
  { fstatRes := some ⟨7, 3, FileType.regular⟩, callocOk := true, listing := none,
    wantSkip := false, watchInitOk := true, addDepOk := false, subEnvs := [] }

/-- The same environment with the `DI_PARENT` allocation succeeding. -/
def initEnvFull : InitEnv := { initEnvPartial with addDepOk := true }

/-- **C6.** The claim states that after `iwatch_free` every fd the
`i_watch` opened is closed exactly once, including on the
partial-initialization path where `iwatch_init` calls `iwatch_free`
after `watch_init` succeeded but before the parent watch was inserted
into the watch-set.  The code violates this: on that path (first
conjunct; `watch_add_dep (parent, DI_PARENT)` fails on target fd 4)
`iwatch_free` finds no watch under `iw->inode` — the parent was never
inserted, since `watch_set_insert` at line 156 runs only after
`watch_add_dep` at line 151 succeeds — so the fd owned by the
successfully created parent watch is closed zero times.  On the
successful path (second conjunct) initialization closes nothing and the
subsequent `iwatch_free` closes fd 4 exactly once, as the claim
describes. -/
theorem iwatch_init_partial_free_leaks_parent_fd :
    (iwatch_init initEnvPartial 4 IN_MODIFY = (none, Trace.empty)) ∧
    ((iwatch_init initEnvFull 4 IN_MODIFY).2.closed = [] ∧
     ((iwatch_init initEnvFull 4 IN_MODIFY).1.map (fun iw => (iwatch_free iw).closed)) =
       some [4]) := by
  refine ⟨?_, ?_, ?_⟩ <;> decide

/-- **C7.** For every call to `iwatch_init`: if `fstat` on the target fd
fails, or allocation fails, or the target is a directory and the
directory listing fails, then `iwatch_init` returns null (no `i_watch`
exists afterwards).  Conversely, when `fstat`, the allocation, the
directory listing (for a directory target), the parent `watch_init` and
the `DI_PARENT` `watch_add_dep` all succeed, `iwatch_init` returns an
`i_watch` regardless of the per-entry subwatch environments — individual
subwatch failures do not cause `iwatch_init` to fail. -/
theorem iwatch_init_error_paths (env : InitEnv) (fd flags : Nat) :
    (env.fstatRes = none → iwatch_init env fd flags = (none, Trace.empty)) ∧
    (env.callocOk = false → (iwatch_init env fd flags).1 = none) ∧
    (∀ st, env.fstatRes = some st → st.st_mode = FileType.directory →
      env.listing = none → (iwatch_init env fd flags).1 = none) ∧
    (∀ st, env.fstatRes = some st → env.callocOk = true →
      (st.st_mode = FileType.directory → env.listing ≠ none) →
      env.watchInitOk = true → env.addDepOk = true →
      ∃ iw, (iwatch_init env fd flags).1 = some iw) := by
  refine ⟨?_, ?_, ?_, ?_⟩
  · intro h
    simp [iwatch_init, h]
  · intro h
    cases hs : env.fstatRes with
    | none => simp [iwatch_init, hs]
    | some st => simp [iwatch_init, hs, h]
  · intro st hs hdir hlist
    simp only [iwatch_init, hs]
    by_cases hc : env.callocOk = false
    · simp [hc]
    · simp [hc, hdir, hlist]
  · intro st hs hc hlist hwi had
    simp only [iwatch_init, hs, hc, had]
    by_cases hdir : st.st_mode = FileType.directory
    · cases hl : env.listing with
      | none => exact absurd hl (hlist hdir)
      | some ds =>
        simp [hdir, hl, watch_init, hwi]
    · simp [hdir, watch_init, hwi]

/-- Witness for C7: concrete instances of an init-fatal failure and of a
successful initialization in which the only directory entry's subwatch
open fails yet init succeeds. -/
theorem iwatch_init_error_paths_holds :
    ((iwatch_init { initEnvPartial with fstatRes := none } 4 IN_MODIFY).1 = none) ∧
    (∃ iw, (iwatch_init
        { fstatRes := some ⟨7, 3, FileType.directory⟩, callocOk := true,
          listing := some [⟨"a", 5, FileType.regular⟩], wantSkip := false,
          watchInitOk := true, addDepOk := true, subEnvs := [SubEnv.allFail] }
        4 IN_MODIFY).1 = some iw) :=
  ⟨congrArg Prod.fst
     ((iwatch_init_error_paths { initEnvPartial with fstatRes := none } 4 IN_MODIFY).1 rfl),
   (iwatch_init_error_paths
      { fstatRes := some ⟨7, 3, FileType.directory⟩, callocOk := true,
        listing := some [⟨"a", 5, FileType.regular⟩], wantSkip := false,
        watchInitOk := true, addDepOk := true, subEnvs := [SubEnv.allFail] }
      4 IN_MODIFY).2.2.2 ⟨7, 3, FileType.directory⟩ rfl rfl (fun _ h => Option.noConfusion h)
      rfl rfl⟩

/-- **C2.** For every call to `iwatch_add_subwatch` that reaches the
inode-reconciliation step (watch-set miss, translator not elided, open
and fstat succeed) where the observed inode differs from the dep's
recorded inode and the observed device differs from the `i_watch`'s
device: the entry is treated as a mountpoint — the dep item keeps its
original (underlying-directory) inode, and the new DEPENDENCY watch is
created on the opened fd and keyed under that original inode rather than
the inode observed on the opened fd. -/
theorem iwatch_add_subwatch_mountpoint (env : SubEnv) (iw : IWatch) (di : DepItem)
    (fd : Nat) (st : Stat)
    (h1 : iw.is_closed = false) (h2 : iw.skip_subfiles = false)
    (h3 : watch_set_find iw.watches di.inode = none)
    (h4 : di.type = FileType.unknown ∨ inotify_to_kqueue iw.flags di.type false ≠ 0)
    (h5 : env.openRes = some fd) (h6 : env.fstatRes = some st)
    (h7 : di.inode ≠ st.st_ino) (h8 : iw.dev ≠ st.st_dev)
    (h9 : env.watchInitOk = true) (h10 : env.addDepOk = true) :
    iwatch_add_subwatch env iw di =
      ({ iw with watches :=
           ({ kind := WatchKind.dependency, fd := fd, flags := st.st_mode, inode := di.inode,
              deps := [DepRef.item { di with type := st.st_mode }] } :: iw.watches) },
       { di with type := st.st_mode },
       some { kind := WatchKind.dependency, fd := fd, flags := st.st_mode, inode := di.inode,
              deps := [DepRef.item { di with type := st.st_mode }] },
       { opened := [fd], closed := [],
         registered := [(fd, inotify_to_kqueue iw.flags st.st_mode false)] }) := by
  have hg : ¬(di.type ≠ FileType.unknown ∧ inotify_to_kqueue iw.flags di.type false = 0) := by
    rcases h4 with h | h
    · exact fun hc => hc.1 h
    · exact fun hc => h hc.2
  simp [iwatch_add_subwatch, h1, h2, h3, tryOpen, hg, h5, afterOpen, h6, di_settype, h7, h8,
    createAndHold, watch_init, h9, holdStep, h10, watch_set_replace, Trace.empty, Trace.close]

/-- Witness for C2: a concrete mountpoint — entry `m` scanned with type
UNKNOWN and underlying inode 50 on device 1; the opened fd observes inode
7 on device 2; the dep keeps inode 50 and the new watch is keyed by 50. -/
theorem iwatch_add_subwatch_mountpoint_holds :
    iwatch_add_subwatch
      { openRes := some 9, fstatRes := some ⟨7, 2, FileType.directory⟩, lstatRes := none,
        watchInitOk := true, addDepOk := true }
      nullMutBase ⟨"m", 50, FileType.unknown⟩ =
    ({ nullMutBase with watches :=
         [{ kind := WatchKind.dependency, fd := 9, flags := FileType.directory, inode := 50,
            deps := [DepRef.item ⟨"m", 50, FileType.directory⟩] }] },
     ⟨"m", 50, FileType.directory⟩,
     some { kind := WatchKind.dependency, fd := 9, flags := FileType.directory, inode := 50,
            deps := [DepRef.item ⟨"m", 50, FileType.directory⟩] },
     { opened := [9], closed := [],
       registered := [(9, inotify_to_kqueue IN_MODIFY FileType.directory false)] }) :=
  iwatch_add_subwatch_mountpoint
    { openRes := some 9, fstatRes := some ⟨7, 2, FileType.directory⟩, lstatRes := none,
      watchInitOk := true, addDepOk := true }
    nullMutBase ⟨"m", 50, FileType.unknown⟩ 9 ⟨7, 2, FileType.directory⟩
    rfl rfl rfl (Or.inl rfl) rfl rfl (by decide) (by decide) rfl rfl

/-- **C1.** For every call to `iwatch_add_subwatch` that reaches the
inode-reconciliation step where the observed inode differs from the
dep's recorded inode and the observed device equals the `i_watch`'s
device (a replacement race): the dep's inode is updated to the newly
observed inode, and the watch-set lookup is retried with that inode — if
a watch for it exists, the newly opened fd is closed, no watch is
inserted (the inode keys of the watch-set end in a sublist of what they
were: no second watch for the same inode is ever created), and that
watch is adopted (when the dep allocation succeeds, the result is the
existing watch with the dep appended, the key set unchanged). -/
theorem iwatch_add_subwatch_replace_race (env : SubEnv) (iw : IWatch) (di : DepItem)
    (fd : Nat) (st : Stat)
    (h1 : iw.is_closed = false) (h2 : iw.skip_subfiles = false)
    (h3 : watch_set_find iw.watches di.inode = none)
    (h4 : di.type = FileType.unknown ∨ inotify_to_kqueue iw.flags di.type false ≠ 0)
    (h5 : env.openRes = some fd) (h6 : env.fstatRes = some st)
    (h7 : di.inode ≠ st.st_ino) (h8 : iw.dev = st.st_dev) :
    ((iwatch_add_subwatch env iw di).2.1 = { di with type := st.st_mode, inode := st.st_ino }) ∧
    (∀ w, watch_set_find iw.watches st.st_ino = some w →
      fd ∈ (iwatch_add_subwatch env iw di).2.2.2.closed ∧
      List.Sublist (inos (iwatch_add_subwatch env iw di).1.watches) (inos iw.watches) ∧
      (env.addDepOk = true →
        inos (iwatch_add_subwatch env iw di).1.watches = inos iw.watches ∧
        (iwatch_add_subwatch env iw di).2.2.1 =
          some { w with deps :=
            (DepRef.item { di with type := st.st_mode, inode := st.st_ino } :: w.deps) })) := by
  have hg : ¬(di.type ≠ FileType.unknown ∧ inotify_to_kqueue iw.flags di.type false = 0) := by
    rcases h4 with h | h
    · exact fun hc => hc.1 h
    · exact fun hc => h hc.2
  have hdev : ¬iw.dev ≠ st.st_dev := fun hc => hc h8
  have hred : iwatch_add_subwatch env iw di =
      (match watch_set_find iw.watches st.st_ino with
       | some w => holdStep env.addDepOk iw { di with type := st.st_mode, inode := st.st_ino } w
           { Trace.empty with opened := [fd], closed := [fd] }
       | none => createAndHold env iw { di with type := st.st_mode, inode := st.st_ino } fd st
           { Trace.empty with opened := [fd] }) := by
    simp [iwatch_add_subwatch, h1, h2, h3, tryOpen, hg, h5, afterOpen, h6, di_settype, h7, hdev,
      Trace.empty]
  cases hf : watch_set_find iw.watches st.st_ino with
  | none =>
    rw [hred, hf]
    refine ⟨?_, ?_⟩
    · cases hwi : env.watchInitOk with
      | false => simp [createAndHold, watch_init, hwi]
      | true =>
        cases had : env.addDepOk with
        | false => simp [createAndHold, watch_init, hwi, holdStep, had]
        | true => simp [createAndHold, watch_init, hwi, holdStep, had]
    · intro w hw
      exact Option.noConfusion hw
  | some w =>
    have hwino : w.inode = st.st_ino := watch_set_find_inode hf
    rw [hred, hf]
    refine ⟨?_, ?_⟩
    · cases had : env.addDepOk with
      | false =>
        by_cases hemp : w.deps.isEmpty
        · simp [holdStep, had, hemp]
        · simp [holdStep, had, hemp]
      | true => simp [holdStep, had]
    · intro w2 hw2
      injection hw2 with hw2
      subst hw2
      cases had : env.addDepOk with
      | false =>
        by_cases hemp : w.deps.isEmpty
        · refine ⟨?_, ?_, ?_⟩
          · simp [holdStep, had, hemp, Trace.close]
          · simp only [holdStep, had, Bool.false_eq_true, if_false, hemp, if_true]
            exact inos_erase_sublist iw.watches w.inode
          · intro hc
            exact Bool.noConfusion hc
        · refine ⟨?_, ?_, ?_⟩
          · simp [holdStep, had, hemp]
          · simp only [holdStep, had, Bool.false_eq_true, if_false, hemp]
            simp
          · intro hc
            exact Bool.noConfusion hc
      | true =>
        refine ⟨?_, ?_, ?_⟩
        · simp [holdStep, had]
        · simp only [holdStep, had, if_true]
          have he2 : inos (watch_set_replace iw.watches w.inode
              { w with deps :=
                  (DepRef.item { di with type := st.st_mode, inode := st.st_ino } :: w.deps) }) =
              inos iw.watches :=
            @inos_replace iw.watches w.inode _ rfl
          rw [he2]
        · intro _
          refine ⟨?_, ?_⟩
          · simp only [holdStep, had, if_true]
            exact @inos_replace iw.watches w.inode _ rfl
          · simp [holdStep, had]

/-- Witness for C1: entry `f` listed with inode 100 is replaced before
open; the opened fd observes inode 101 on the same device, a watch for
101 already exists, the fresh fd 9 is closed and the existing watch is
adopted with its key set unchanged. -/
theorem iwatch_add_subwatch_replace_race_holds :
    ((iwatch_add_subwatch
        { openRes := some 9, fstatRes := some ⟨101, 1, FileType.regular⟩, lstatRes := none,
          watchInitOk := true, addDepOk := true }
        { nullMutBase with watches :=
            [{ kind := WatchKind.dependency, fd := 8, flags := FileType.regular, inode := 101,
               deps := [DepRef.item ⟨"g", 101, FileType.regular⟩] }] }
        ⟨"f", 100, FileType.regular⟩).2.1 = ⟨"f", 101, FileType.regular⟩) ∧
    (9 ∈ (iwatch_add_subwatch
        { openRes := some 9, fstatRes := some ⟨101, 1, FileType.regular⟩, lstatRes := none,
          watchInitOk := true, addDepOk := true }
        { nullMutBase with watches :=
            [{ kind := WatchKind.dependency, fd := 8, flags := FileType.regular, inode := 101,
               deps := [DepRef.item ⟨"g", 101, FileType.regular⟩] }] }
        ⟨"f", 100, FileType.regular⟩).2.2.2.closed) := by
  have h := iwatch_add_subwatch_replace_race
    { openRes := some 9, fstatRes := some ⟨101, 1, FileType.regular⟩, lstatRes := none,
      watchInitOk := true, addDepOk := true }
    { nullMutBase with watches :=
        [{ kind := WatchKind.dependency, fd := 8, flags := FileType.regular, inode := 101,
           deps := [DepRef.item ⟨"g", 101, FileType.regular⟩] }] }
    ⟨"f", 100, FileType.regular⟩ 9 ⟨101, 1, FileType.regular⟩
    rfl rfl rfl (by decide) rfl rfl (by decide) rfl
  exact ⟨h.1, (h.2 _ rfl).1⟩

/-! ### Preservation of the unique-inode invariant (claim C3) -/

theorem lstatFallback_fst (env : SubEnv) (iw : IWatch) (di : DepItem) (tr : Trace) :
    (lstatFallback env iw di tr).1 = iw := by
  unfold lstatFallback
  split
  · cases env.lstatRes <;> rfl
  · rfl

theorem nodup_holdStep (a : Bool) (iw : IWatch) (di : DepItem) (w : Watch) (tr : Trace)
    (h : (inos iw.watches).Nodup) : (inos (holdStep a iw di w tr).1.watches).Nodup := by
  unfold holdStep
  split
  · exact (@inos_replace iw.watches w.inode
      { w with deps := (DepRef.item di :: w.deps) } rfl).symm ▸ h
  · split
    · exact nodup_inos_erase h
    · exact h

theorem nodup_createAndHold (env : SubEnv) (iw : IWatch) (di : DepItem) (fd : Nat)
    (st : Stat) (tr : Trace) (hfind : watch_set_find iw.watches st.st_ino = none)
    (h : (inos iw.watches).Nodup) :
    (inos (createAndHold env iw di fd st tr).1.watches).Nodup := by
  cases hwi : env.watchInitOk with
  | false => simpa [createAndHold, watch_init, hwi] using h
  | true =>
    have hnotin : st.st_ino ∉ inos iw.watches := watch_set_find_eq_none.mp hfind
    have hcons : (inos
        ({ kind := WatchKind.dependency, fd := fd, flags := st.st_mode, inode := st.st_ino,
           deps := ([] : List DepRef) } :: iw.watches)).Nodup := by
      simp only [inos, List.map_cons, List.nodup_cons]
      exact ⟨hnotin, h⟩
    simp only [createAndHold, watch_init, hwi, if_true]
    exact nodup_holdStep _ _ _ _ _ hcons

theorem nodup_add_subwatch (env : SubEnv) (iw : IWatch) (di : DepItem)
    (h : (inos iw.watches).Nodup) :
    (inos (iwatch_add_subwatch env iw di).1.watches).Nodup := by
  unfold iwatch_add_subwatch
  split
  · exact h
  split
  · rw [lstatFallback_fst]
    exact h
  split
  · exact nodup_holdStep _ _ _ _ _ h
  case _ hfind =>
    unfold tryOpen
    split
    · exact h
    split
    · rw [lstatFallback_fst]
      exact h
    case _ fd hopen =>
      unfold afterOpen
      split
      · rw [lstatFallback_fst]
        exact h
      case _ st hstat =>
        split
        case isTrue hsame =>
          refine nodup_createAndHold _ _ _ _ _ _ ?_ h
          rw [hsame] at hfind
          exact hfind
        case isFalse hsame =>
          split
          case isTrue hdev =>
            refine nodup_createAndHold _ _ _ _ _ _ ?_ h
            exact hfind
          case isFalse hdev =>
            split
            · exact nodup_holdStep _ _ _ _ _ h
            case _ hfind2 =>
              exact nodup_createAndHold _ _ _ _ _ _ hfind2 h

theorem nodup_del_subwatch (iw : IWatch) (di : DepItem)
    (h : (inos iw.watches).Nodup) :
    (inos (iwatch_del_subwatch iw di).1.watches).Nodup := by
  unfold iwatch_del_subwatch
  split
  · exact h
  case _ w hfind =>
    simp only [watch_del_dep]
    split
    · exact nodup_inos_erase h
    · exact (@inos_replace iw.watches w.inode
        { w with deps := removeFirst (DepRef.item di) w.deps } rfl).symm ▸ h

theorem nodup_move_subwatch (iw : IWatch) (di_from di_to : DepItem)
    (h : (inos iw.watches).Nodup) :
    (inos (iwatch_move_subwatch iw di_from di_to).1.watches).Nodup := by
  unfold iwatch_move_subwatch
  split
  case _ w hfind =>
    split
    · exact h
    · have hkey0 : w.inode = di_to.inode := watch_set_find_inode hfind
      have hkey : ({ w with
          deps := replaceFirst (DepRef.item di_from) (DepRef.item di_to) w.deps } : Watch).inode =
          di_to.inode := hkey0
      exact (@inos_replace iw.watches di_to.inode
        { w with deps := replaceFirst (DepRef.item di_from) (DepRef.item di_to) w.deps }
        hkey).symm ▸ h
  · exact h

theorem nodup_addStep (env : SubEnv) (iw : IWatch) (di : DepItem)
    (h : (inos iw.watches).Nodup) : (inos (addStep env iw di).1.watches).Nodup :=
  nodup_add_subwatch env iw di h

theorem nodup_updateOne (env : SubEnv) (iw : IWatch) (di : DepItem)
    (h : (inos iw.watches).Nodup) : (inos (updateOne env iw di).1.watches).Nodup := by
  unfold updateOne
  split
  case _ w hfind =>
    split
    · split
      · simp only [watch_del_dep]
        split
        · exact nodup_inos_erase h
        · exact (@inos_replace iw.watches w.inode
            { w with deps := removeFirst (DepRef.item di) w.deps } rfl).symm ▸ h
      · exact h
    · exact nodup_add_subwatch env iw di h
  · exact nodup_add_subwatch env iw di h

theorem nodup_depsLoop (step : SubEnv → IWatch → DepItem → IWatch × DepItem × Trace)
    (hstep : ∀ e s d, (inos s.watches).Nodup → (inos (step e s d).1.watches).Nodup) :
    ∀ (l : List DepItem) (envs : List SubEnv) (iw : IWatch),
      (inos iw.watches).Nodup → (inos (depsLoop step envs iw l).1.watches).Nodup := by
  intro l
  induction l with
  | nil => intro envs iw h; exact h
  | cons d rest ih =>
    intro envs iw h
    exact ih envs.tail _ (hstep _ _ _ h)

theorem nodup_update_flags (envs : List SubEnv) (iw : IWatch) (flags : Nat)
    (h : (inos iw.watches).Nodup) :
    (inos (iwatch_update_flags envs iw flags).1.watches).Nodup := by
  unfold iwatch_update_flags
  exact nodup_depsLoop updateOne nodup_updateOne _ _ _ h

theorem nodup_iwatch_init (env : InitEnv) (fd flags : Nat) (iw : IWatch)
    (h : (iwatch_init env fd flags).1 = some iw) : (inos iw.watches).Nodup := by
  unfold iwatch_init at h
  cases hs : env.fstatRes with
  | none => simp [hs] at h
  | some st =>
    rw [hs] at h
    by_cases hc : env.callocOk = false
    · simp [hc] at h
    · cases hwi : env.watchInitOk with
      | false =>
        by_cases hdir : st.st_mode = FileType.directory
        · cases hl : env.listing with
          | none => simp [hc, hdir, hl] at h
          | some ds => simp [hc, hdir, hl, watch_init, hwi] at h
        · simp [hc, hdir, watch_init, hwi] at h
      | true =>
        by_cases had : env.addDepOk = false
        · by_cases hdir : st.st_mode = FileType.directory
          · cases hl : env.listing with
            | none => simp [hc, hdir, hl] at h
            | some ds => simp [hc, hdir, hl, watch_init, hwi, had] at h
          · simp [hc, hdir, watch_init, hwi, had] at h
        · by_cases hdir : st.st_mode = FileType.directory
          · cases hl : env.listing with
            | none => simp [hc, hdir, hl] at h
            | some ds =>
              simp [hc, hdir, hl, watch_init, hwi, had] at h
              subst h
              exact nodup_depsLoop addStep nodup_addStep _ _ _ (by simp [inos])
          · simp [hc, hdir, watch_init, hwi, had] at h
            subst h
            simp [inos]

/-- The states of one `i_watch` reachable by `iwatch_init` followed by
any sequence of `iwatch_add_subwatch`, `iwatch_del_subwatch`,
`iwatch_move_subwatch` and `iwatch_update_flags` under arbitrary syscall
environments (`iwatch_free` destroys the state and therefore ends every
such sequence). -/
inductive Reach : IWatch → Prop where
  | init (env : InitEnv) (fd flags : Nat) (iw : IWatch) :
      (iwatch_init env fd flags).1 = some iw → Reach iw
  | add (env : SubEnv) (iw : IWatch) (di : DepItem) :
      Reach iw → Reach (iwatch_add_subwatch env iw di).1
  | del (iw : IWatch) (di : DepItem) :
      Reach iw → Reach (iwatch_del_subwatch iw di).1
  | move (iw : IWatch) (di_from di_to : DepItem) :
      Reach iw → Reach (iwatch_move_subwatch iw di_from di_to).1
  | update (envs : List SubEnv) (iw : IWatch) (flags : Nat) :
      Reach iw → Reach (iwatch_update_flags envs iw flags).1

theorem countP_inode_le_one {l : List Watch} (h : (inos l).Nodup) (ino : Nat) :
    l.countP (fun w => w.inode == ino) ≤ 1 := by
  induction l with
  | nil => simp
  | cons x xs ih =>
    simp only [inos, List.map_cons, List.nodup_cons] at h
    by_cases hx : x.inode = ino
    · rw [List.countP_cons_of_pos _ _ (by simpa using hx)]
      have hz : xs.countP (fun w => w.inode == ino) = 0 := by
        rw [List.countP_eq_zero]
        intro a ha hae
        simp only [beq_iff_eq] at hae
        have hmem : a.inode ∈ List.map (fun w => w.inode) xs :=
          List.mem_map_of_mem (fun w => w.inode) ha
        rw [hae, ← hx] at hmem
        exact h.1 hmem
      omega
    · rw [List.countP_cons_of_neg _ _ (by simpa using hx)]
      exact ih h.2

/-- **C3.** In every state reachable by any sequence of `iwatch_init`,
`iwatch_add_subwatch`, `iwatch_del_subwatch`, `iwatch_move_subwatch` and
`iwatch_update_flags` on one `i_watch` (with `iwatch_free` ending the
sequence), no two watches in the watch-set have the same inode — the
inode keys are duplicate-free — and hence at most one watch (each
holding one open file descriptor) exists per watched inode:
`iwatch_add_subwatch` only inserts a new watch after a watch-set lookup
for that inode returned nothing, and closes the freshly opened fd before
adopting an existing watch. -/
theorem reachable_watch_inodes_nodup (iw : IWatch) (h : Reach iw) :
    (inos iw.watches).Nodup ∧
    ∀ ino, iw.watches.countP (fun w => w.inode == ino) ≤ 1 := by
  have hnd : (inos iw.watches).Nodup := by
    induction h with
    | init env fd flags iw0 h0 => exact nodup_iwatch_init env fd flags iw0 h0
    | add env iw0 di _ ih => exact nodup_add_subwatch env iw0 di ih
    | del iw0 di _ ih => exact nodup_del_subwatch iw0 di ih
    | move iw0 di_from di_to _ ih => exact nodup_move_subwatch iw0 di_from di_to ih
    | update envs iw0 flags _ ih => exact nodup_update_flags envs iw0 flags ih
  exact ⟨hnd, countP_inode_le_one hnd⟩

/-- The environment and state for the C3 witness: a successful
non-directory initialization. -/
def reachEnv : InitEnv :=
  { fstatRes := some ⟨7, 3, FileType.regular⟩, callocOk := true, listing := none,
    wantSkip := false, watchInitOk := true, addDepOk := true, subEnvs := [] }

/-- The state produced by `iwatch_init reachEnv 4 IN_MODIFY`. -/
def reachState : IWatch :=
  { fd := 4, flags := IN_MODIFY, inode := 7, dev := 3, is_closed := false,
    skip_subfiles := false,
    watches := [{ kind := WatchKind.user, fd := 4, flags := FileType.regular, inode := 7,
                  deps := [DepRef.parent] }],
    deps := [] }

/-- Witness for C3: the invariant holds at a concrete reachable state. -/
theorem reachable_watch_inodes_nodup_holds :
    (inos reachState.watches).Nodup ∧
    ∀ ino, reachState.watches.countP (fun w => w.inode == ino) ≤ 1 :=
  reachable_watch_inodes_nodup reachState
    (Reach.init reachEnv 4 IN_MODIFY reachState (by decide))

/-! ### Add/del round-trip (claim C8) -/

theorem lstatFallback_snd (env : SubEnv) (iw : IWatch) (di : DepItem) (tr : Trace) :
    ∃ t, (lstatFallback env iw di tr).2.1 =
      { path := di.path, inode := di.inode, type := t } := by
  unfold lstatFallback
  split
  · cases env.lstatRes with
    | none => exact ⟨di.type, rfl⟩
    | some st => exact ⟨st.st_mode, rfl⟩
  · exact ⟨di.type, rfl⟩

/-- Deleting a dep that no watch holds, in a watch-set whose watches all
have other deps, changes nothing. -/
theorem del_noop (iw : IWatch) (di : DepItem)
    (hne : ∀ w ∈ iw.watches, w.deps ≠ [])
    (habs : ∀ w ∈ iw.watches, DepRef.item di ∉ w.deps) :
    (iwatch_del_subwatch iw di).1 = iw := by
  unfold iwatch_del_subwatch
  cases hf : watch_set_find iw.watches di.inode with
  | none => rfl
  | some w =>
    have hw := watch_set_find_mem hf
    obtain ⟨wk, wfd, wfl, wino, wdeps⟩ := w
    have hwino : wino = di.inode := watch_set_find_inode hf
    subst hwino
    simp only [watch_del_dep, removeFirst_of_not_mem (habs _ hw)]
    rw [if_neg (fun hc => hne _ hw (List.isEmpty_iff.mp hc))]
    simp only [watch_set_replace_self hf]

/-- Appending a dep to an adopted watch and then deleting that dep
returns the watch-set to its prior state (also when the append failed),
provided the watch had other deps and did not already hold a dep of that
name. -/
theorem holdStep_del_roundtrip (a : Bool) (iw : IWatch) (di : DepItem) (w : Watch) (tr : Trace)
    (hf : watch_set_find iw.watches di.inode = some w)
    (hne : w.deps ≠ [])
    (habs : DepRef.item di ∉ w.deps) :
    (iwatch_del_subwatch (holdStep a iw di w tr).1 (holdStep a iw di w tr).2.1).1.watches =
      iw.watches := by
  obtain ⟨wk, wfd, wfl, wino, wdeps⟩ := w
  have hwino : wino = di.inode := watch_set_find_inode hf
  subst hwino
  cases a with
  | true =>
    have hstep : holdStep true iw di ⟨wk, wfd, wfl, di.inode, wdeps⟩ tr =
        ({ iw with watches := (watch_set_replace iw.watches di.inode
             ⟨wk, wfd, wfl, di.inode, (DepRef.item di :: wdeps)⟩) }, di,
         some ⟨wk, wfd, wfl, di.inode, (DepRef.item di :: wdeps)⟩, tr) := by
      simp [holdStep]
    rw [hstep]
    have hf2 : watch_set_find (watch_set_replace iw.watches di.inode
        ⟨wk, wfd, wfl, di.inode, (DepRef.item di :: wdeps)⟩) di.inode =
        some ⟨wk, wfd, wfl, di.inode, (DepRef.item di :: wdeps)⟩ :=
      watch_set_find_replace rfl hf
    unfold iwatch_del_subwatch
    simp only [hf2, watch_del_dep, removeFirst_cons_self]
    rw [if_neg (fun hc => hne (List.isEmpty_iff.mp hc))]
    rw [@watch_set_replace_replace iw.watches di.inode
      ⟨wk, wfd, wfl, di.inode, (DepRef.item di :: wdeps)⟩
      ⟨wk, wfd, wfl, di.inode, wdeps⟩ rfl]
    rw [watch_set_replace_self hf]
  | false =>
    have hemp : wdeps.isEmpty = false := by
      cases wdeps with
      | nil => exact absurd rfl hne
      | cons x xs => rfl
    have hstep : holdStep false iw di ⟨wk, wfd, wfl, di.inode, wdeps⟩ tr =
        (iw, di, some ⟨wk, wfd, wfl, di.inode, wdeps⟩, tr) := by
      simp [holdStep, hemp]
    rw [hstep]
    unfold iwatch_del_subwatch
    simp only [hf, watch_del_dep, removeFirst_of_not_mem habs]
    rw [if_neg (fun hc => hne (List.isEmpty_iff.mp hc))]
    rw [watch_set_replace_self hf]

/-- Creating a fresh watch keyed by the dep's inode and then deleting the
dep removes the watch again (and when the dep append failed the watch was
already removed), restoring the prior watch-set. -/
theorem createAndHold_del_roundtrip (env : SubEnv) (iw : IWatch) (di : DepItem) (fd : Nat)
    (st : Stat) (tr : Trace)
    (hkey : st.st_ino = di.inode)
    (hf : watch_set_find iw.watches di.inode = none) :
    (iwatch_del_subwatch (createAndHold env iw di fd st tr).1
        (createAndHold env iw di fd st tr).2.1).1.watches = iw.watches := by
  obtain ⟨sino, sdev, smode⟩ := st
  have hkey2 : sino = di.inode := hkey
  subst hkey2
  cases hwi : env.watchInitOk with
  | false =>
    have hstep : createAndHold env iw di fd ⟨di.inode, sdev, smode⟩ tr =
        (iw, di, none, tr.close fd) := by
      simp [createAndHold, watch_init, hwi]
    rw [hstep]
    unfold iwatch_del_subwatch
    simp only [hf]
  | true =>
    cases had : env.addDepOk with
    | true =>
      have hstep : createAndHold env iw di fd ⟨di.inode, sdev, smode⟩ tr =
          ({ iw with watches :=
               (⟨WatchKind.dependency, fd, smode, di.inode, [DepRef.item di]⟩ :: iw.watches) },
           di, some ⟨WatchKind.dependency, fd, smode, di.inode, [DepRef.item di]⟩,
           { tr with registered :=
               tr.registered ++ [(fd, inotify_to_kqueue iw.flags smode false)] }) := by
        simp [createAndHold, watch_init, hwi, holdStep, had, watch_set_replace]
      rw [hstep]
      unfold iwatch_del_subwatch
      have hfind : watch_set_find
          ((⟨WatchKind.dependency, fd, smode, di.inode, [DepRef.item di]⟩ : Watch) :: iw.watches)
          di.inode =
          some ⟨WatchKind.dependency, fd, smode, di.inode, [DepRef.item di]⟩ := by
        simp [watch_set_find]
      simp only [hfind, watch_del_dep, removeFirst_cons_self]
      simp [watch_set_erase]
    | false =>
      have hstep : createAndHold env iw di fd ⟨di.inode, sdev, smode⟩ tr =
          ({ iw with watches := iw.watches }, di,
           some ⟨WatchKind.dependency, fd, smode, di.inode, []⟩,
           ({ tr with registered :=
                tr.registered ++ [(fd, inotify_to_kqueue iw.flags smode false)] }).close fd) := by
        simp [createAndHold, watch_init, hwi, holdStep, had, watch_set_erase]
      rw [hstep]
      unfold iwatch_del_subwatch
      simp only [hf]

/-- The state of the C8 counterexample: a closed `i_watch` whose only
watch already holds the dep `f`. -/
def addDelCexState : IWatch :=
  { fd := 3, flags := IN_MODIFY, inode := 1, dev := 1, is_closed := true,
    skip_subfiles := false,
    watches := [{ kind := WatchKind.user, fd := 3, flags := FileType.directory, inode := 5,
                  deps := [DepRef.item ⟨"f", 5, FileType.regular⟩, DepRef.parent] }],
    deps := [⟨"f", 5, FileType.regular⟩] }

/-- Counterexample to C8 as stated: when a watch already holds the dep
item passed to `iwatch_add_subwatch` (here because the `i_watch` is
closed the add is a pure no-op), the following `iwatch_del_subwatch`
removes that pre-existing dep reference, so the watch-set does not return
to its prior state. -/
theorem iwatch_add_del_subwatch_cex :
    (iwatch_del_subwatch
        (iwatch_add_subwatch SubEnv.allFail addDelCexState ⟨"f", 5, FileType.regular⟩).1
        (iwatch_add_subwatch SubEnv.allFail addDelCexState ⟨"f", 5, FileType.regular⟩).2.1
     ).1.watches ≠ addDelCexState.watches := by
  decide

/-- **C8** (amended).  For every `i_watch` state in which every watch of
the watch-set has a non-empty dep list (invariant I2) and no watch
already holds a dep reference bearing `di`'s name (as holds for a dep
item freshly produced by a directory scan — `iwatch_update_flags` also
guards its add calls on the dep not being held), calling
`iwatch_add_subwatch (iw, di)` and then `iwatch_del_subwatch` on the
(possibly mutated) dep leaves the watch-set in its prior state: a watch
created by the add is removed (closing its fd) when its last dep
departs, a watch adopted by the add keeps its other deps and survives,
and an add that returned null without adding a dep makes the del a
no-op. -/
theorem iwatch_add_del_subwatch_roundtrip (env : SubEnv) (iw : IWatch) (di : DepItem)
    (hne : ∀ w ∈ iw.watches, w.deps ≠ [])
    (hfresh : ∀ w ∈ iw.watches, ∀ ino t,
      DepRef.item { path := di.path, inode := ino, type := t } ∉ w.deps) :
    (iwatch_del_subwatch (iwatch_add_subwatch env iw di).1
        (iwatch_add_subwatch env iw di).2.1).1.watches = iw.watches := by
  unfold iwatch_add_subwatch
  split
  · exact congrArg IWatch.watches
      (del_noop iw di hne (fun w hw => hfresh w hw di.inode di.type))
  split
  · obtain ⟨t, ht⟩ := lstatFallback_snd env iw di Trace.empty
    rw [lstatFallback_fst env iw di Trace.empty, ht]
    exact congrArg IWatch.watches
      (del_noop iw { path := di.path, inode := di.inode, type := t } hne
        (fun w hw => hfresh w hw di.inode t))
  split
  case _ w hf =>
    exact holdStep_del_roundtrip env.addDepOk iw (di_settype di w.flags) w Trace.empty hf
      (hne w (watch_set_find_mem hf)) (hfresh w (watch_set_find_mem hf) di.inode w.flags)
  case _ hf =>
    unfold tryOpen
    split
    · exact congrArg IWatch.watches
        (del_noop iw di hne (fun w hw => hfresh w hw di.inode di.type))
    split
    · obtain ⟨t, ht⟩ := lstatFallback_snd env iw di Trace.empty
      rw [lstatFallback_fst env iw di Trace.empty, ht]
      exact congrArg IWatch.watches
        (del_noop iw { path := di.path, inode := di.inode, type := t } hne
          (fun w hw => hfresh w hw di.inode t))
    case _ fd hopen =>
      unfold afterOpen
      split
      case _ htr =>
        obtain ⟨t, ht⟩ := lstatFallback_snd env iw di
          { Trace.empty with opened := [fd], closed := [fd] }
        rw [lstatFallback_fst env iw di { Trace.empty with opened := [fd], closed := [fd] }, ht]
        exact congrArg IWatch.watches
          (del_noop iw { path := di.path, inode := di.inode, type := t } hne
            (fun w hw => hfresh w hw di.inode t))
      case _ st hstat =>
        split
        case isTrue hsame =>
          exact createAndHold_del_roundtrip env iw (di_settype di st.st_mode) fd st
            { Trace.empty with opened := [fd] } hsame.symm hf
        case isFalse hsame =>
          split
          case isTrue hdev =>
            exact createAndHold_del_roundtrip env iw (di_settype di st.st_mode) fd
              { st with st_ino := di.inode } { Trace.empty with opened := [fd] } rfl hf
          case isFalse hdev =>
            split
            case _ w2 hf2 =>
              exact holdStep_del_roundtrip env.addDepOk iw
                { di with type := st.st_mode, inode := st.st_ino } w2
                { Trace.empty with opened := [fd], closed := [fd] } hf2
                (hne w2 (watch_set_find_mem hf2))
                (hfresh w2 (watch_set_find_mem hf2) st.st_ino st.st_mode)
            case _ hf2 =>
              exact createAndHold_del_roundtrip env iw
                { di with type := st.st_mode, inode := st.st_ino } fd st
                { Trace.empty with opened := [fd] } rfl hf2

/-- Witness for C8 (amended): adding and removing a fresh scan entry `b`
on a state holding only the parent watch restores the watch-set. -/
theorem iwatch_add_del_subwatch_roundtrip_holds :
    (iwatch_del_subwatch
        (iwatch_add_subwatch
          { openRes := some 9, fstatRes := some ⟨6, 3, FileType.regular⟩, lstatRes := none,
            watchInitOk := true, addDepOk := true }
          reachState ⟨"b", 6, FileType.regular⟩).1
        (iwatch_add_subwatch
          { openRes := some 9, fstatRes := some ⟨6, 3, FileType.regular⟩, lstatRes := none,
            watchInitOk := true, addDepOk := true }
          reachState ⟨"b", 6, FileType.regular⟩).2.1).1.watches = reachState.watches :=
  iwatch_add_del_subwatch_roundtrip
    { openRes := some 9, fstatRes := some ⟨6, 3, FileType.regular⟩, lstatRes := none,
      watchInitOk := true, addDepOk := true }
    reachState ⟨"b", 6, FileType.regular⟩ (by decide)
    (by
      intro w hw ino t hmem
      simp only [reachState, List.mem_singleton] at hw
      subst hw
      simp at hmem)

/-! ### Mask update (claim C4) -/

theorem holdStep_fst_flags (a : Bool) (iw : IWatch) (di : DepItem) (w : Watch) (tr : Trace) :
    (holdStep a iw di w tr).1.flags = iw.flags := by
  unfold holdStep
  split
  · rfl
  split
  · rfl
  · rfl

theorem createAndHold_fst_flags (env : SubEnv) (iw : IWatch) (di : DepItem) (fd : Nat)
    (st : Stat) (tr : Trace) : (createAndHold env iw di fd st tr).1.flags = iw.flags := by
  unfold createAndHold
  cases hwi : env.watchInitOk with
  | false => simp [watch_init, hwi]
  | true =>
    simp only [watch_init, hwi, if_true]
    exact holdStep_fst_flags _ _ _ _ _

theorem add_subwatch_fst_flags (env : SubEnv) (iw : IWatch) (di : DepItem) :
    (iwatch_add_subwatch env iw di).1.flags = iw.flags := by
  unfold iwatch_add_subwatch
  split
  · rfl
  split
  · rw [lstatFallback_fst]
  split
  · exact holdStep_fst_flags _ _ _ _ _
  · unfold tryOpen
    split
    · rfl
    split
    · rw [lstatFallback_fst]
    · unfold afterOpen
      split
      · rw [lstatFallback_fst]
      · split
        · exact createAndHold_fst_flags _ _ _ _ _ _
        split
        · exact createAndHold_fst_flags _ _ _ _ _ _
        split
        · exact holdStep_fst_flags _ _ _ _ _
        · exact createAndHold_fst_flags _ _ _ _ _ _

theorem updateOne_fst_flags (env : SubEnv) (iw : IWatch) (di : DepItem) :
    (updateOne env iw di).1.flags = iw.flags := by
  unfold updateOne
  split
  · split
    · split
      · rfl
      · rfl
    · exact add_subwatch_fst_flags env iw di
  · exact add_subwatch_fst_flags env iw di

theorem depsLoop_fst_flags (step : SubEnv → IWatch → DepItem → IWatch × DepItem × Trace)
    (hstep : ∀ e s d, (step e s d).1.flags = s.flags) :
    ∀ (l : List DepItem) (envs : List SubEnv) (iw : IWatch),
      (depsLoop step envs iw l).1.flags = iw.flags := by
  intro l
  induction l with
  | nil => intro envs iw; rfl
  | cons d rest ih =>
    intro envs iw
    rw [show (depsLoop step envs iw (d :: rest)).1 =
      (depsLoop step envs.tail (step (envs.headD SubEnv.allFail) iw d).1 rest).1 from rfl]
    rw [ih, hstep]

/-- **C4.** For every call to `iwatch_update_flags (iw, flags)`: the new
mask stored in `iw.flags` is `flags ||| previous` when `flags` carries
the `IN_MASK_ADD` bit and `flags` itself otherwise; the parent watch
(the watch-set entry at `iw.inode`, asserted present by the source) is
re-registered with directory-parent fflags
`inotify_to_kqueue (newMask, parent.flags, true)`; and the loop body
`updateOne`, folded over the dependency snapshot in order by
`iwatch_update_flags`, behaves per entry as: when no watch holds that
entry it is exactly `iwatch_add_subwatch`; when a watch holds the entry
and the translated fflags for the entry are 0 the entry's dep is dropped
from its watch via `watch_del_dep` (possibly closing it); otherwise the
watch is re-registered with the new fflags and nothing else changes. -/
theorem iwatch_update_flags_spec (envs : List SubEnv) (iw : IWatch) (flags0 : Nat)
    (parent : Watch) (hp : watch_set_find iw.watches iw.inode = some parent) :
    ((iwatch_update_flags envs iw flags0).1.flags =
      (if flags0 &&& IN_MASK_ADD ≠ 0 then flags0 ||| iw.flags else flags0)) ∧
    ((parent.fd, inotify_to_kqueue
        (if flags0 &&& IN_MASK_ADD ≠ 0 then flags0 ||| iw.flags else flags0) parent.flags true)
      ∈ (iwatch_update_flags envs iw flags0).2.registered) ∧
    (∀ e s d,
      ((watch_set_find s.watches d.inode = none ∨
        (∃ w, watch_set_find s.watches d.inode = some w ∧ DepRef.item d ∉ w.deps)) →
        updateOne e s d =
          ((iwatch_add_subwatch e s d).1, (iwatch_add_subwatch e s d).2.1,
           (iwatch_add_subwatch e s d).2.2.2)) ∧
      (∀ w, watch_set_find s.watches d.inode = some w → DepRef.item d ∈ w.deps →
        ((inotify_to_kqueue s.flags w.flags false = 0 →
          updateOne e s d =
            ({ s with watches := (watch_del_dep s.watches w (DepRef.item d)).1 }, d,
             { Trace.empty with closed := (watch_del_dep s.watches w (DepRef.item d)).2 })) ∧
         (inotify_to_kqueue s.flags w.flags false ≠ 0 →
          updateOne e s d =
            (s, d, { Trace.empty with
                     registered := [(w.fd, inotify_to_kqueue s.flags w.flags false)] }))))) := by
  refine ⟨?_, ?_, ?_⟩
  · show (iwatch_update_flags envs iw flags0).1.flags = _
    unfold iwatch_update_flags
    cases hw : watch_set_find iw.watches iw.inode with
    | none => exact Option.noConfusion (hp ▸ hw)
    | some w =>
      exact depsLoop_fst_flags updateOne updateOne_fst_flags _ _ _
  · unfold iwatch_update_flags
    dsimp only
    rw [hp]
    exact List.mem_append_left _ (List.mem_singleton_self _)
  · intro e s d
    constructor
    · intro hcase
      rcases hcase with hnone | ⟨w, hw, hnotmem⟩
      · simp only [updateOne, hnone]
        rfl
      · simp only [updateOne, hw]
        rw [if_neg hnotmem]
        rfl
    · intro w hw hmem
      constructor
      · intro hf0
        simp only [updateOne, hw]
        rw [if_pos hmem, if_pos hf0]
      · intro hf0
        simp only [updateOne, hw]
        rw [if_pos hmem, if_neg hf0]

/-- Witness for C4: updating the parent-only state to an `IN_ATTRIB`
mask replaces the mask and re-registers the parent fd 4. -/
theorem iwatch_update_flags_spec_holds :
    ((iwatch_update_flags [] reachState IN_ATTRIB).1.flags =
      (if IN_ATTRIB &&& IN_MASK_ADD ≠ 0 then IN_ATTRIB ||| reachState.flags else IN_ATTRIB)) ∧
    ((4 : Nat), inotify_to_kqueue
        (if IN_ATTRIB &&& IN_MASK_ADD ≠ 0 then IN_ATTRIB ||| reachState.flags else IN_ATTRIB)
        FileType.regular true)
      ∈ (iwatch_update_flags [] reachState IN_ATTRIB).2.registered := by
  have h := iwatch_update_flags_spec [] reachState IN_ATTRIB
    { kind := WatchKind.user, fd := 4, flags := FileType.regular, inode := 7,
      deps := [DepRef.parent] } (by decide)
  exact ⟨h.1, h.2.1⟩

/-- Witness for C9: a concrete rename of `x` to `y` over the same inode
swaps the stored dep reference and leaves everything else unchanged. -/
theorem iwatch_move_subwatch_frame_holds :
    (⟨"x", 6, FileType.regular⟩ : DepItem).inode = (⟨"y", 6, FileType.regular⟩ : DepItem).inode ∧
    (iwatch_move_subwatch
        { fd := 3, flags := IN_MODIFY, inode := 1, dev := 1, is_closed := false,
          skip_subfiles := false,
          watches := [{ kind := WatchKind.dependency, fd := 8, flags := FileType.regular,
                        inode := 6, deps := [DepRef.item ⟨"x", 6, FileType.regular⟩] }],
          deps := [] }
        ⟨"x", 6, FileType.regular⟩ ⟨"y", 6, FileType.regular⟩).2 = Trace.empty :=
  ⟨rfl,
   (iwatch_move_subwatch_frame _ ⟨"x", 6, FileType.regular⟩ ⟨"y", 6, FileType.regular⟩ rfl).1⟩

end Inotify
